import Mathlib

/-!
Verification of the `e_matrix` terminal particle-swarm renderer.

The repository holds two near-duplicate C programs (`src/ematrix.c` and a
second unnamed variant).  Both simulate particles whose positions follow the
matrix exponential of the generator A = [[-1,-1],[1,0]], respawn particles
that leave the screen or come too close to the center, and draw one glyph per
particle per frame.

The embedding below models the program's `float` arithmetic by real
arithmetic (the spec states its numeric properties "within floating-point
tolerance"; over ℝ they hold exactly).  The constant `w` that the source
stores as the float literal `0.8660254037844386f` is modelled by the exact
value `√3 / 2` that the literal rounds, as documented in the source comment.
Randomness (`rand()` based sampling) is modelled by passing the sampled
values as explicit parameters in `[0, 1]`.  Discrete, integer-valued parts of
the program (glyph table, swarm sizing, key handling, exit paths) are
modelled by computable functions.
-/

namespace EMatrix

/-! ## Tunable constants, from the source (identical in both variants) -/

/-- Source constant `SCALE = 0.76f`. -/
def SCALE : ℝ := 0.76

/-- Source constant `RADIUS_MULT = 2.0f`. -/
def RADIUS_MULT : ℝ := 2

/-- Source constant `X_MULT = 2.0f` (horizontal stretch). -/
def X_MULT : ℝ := 2

/-- Source constant `Y_MULT = 1.0f` (vertical stretch). -/
def Y_MULT : ℝ := 1

/-- Source constant `SPEED = 1.35f`. -/
def SPEED : ℝ := 1.35

/-- Source constant `MIN_R = 3.0f` (respawn when near center). -/
def MIN_R : ℝ := 3

/-! ## Trajectory Evaluator (`expA` in both sources) -/

/-- A 2x2 real matrix, as the four entries `M[0][0], M[0][1], M[1][0], M[1][1]`
of the C array `float M[2][2]`. -/
structure Mat2 where
  m00 : ℝ
  m01 : ℝ
  m10 : ℝ
  m11 : ℝ

/-- The constant `w = sqrt(3)/2` of `expA`.  The source stores the float
literal `0.8660254037844386f`, the rounding of this exact value. -/
noncomputable def w : ℝ := Real.sqrt 3 / 2

/-- Embedding of `expA`: analytic matrix exponential of
`A = [[-1,-1],[1,0]]`, computed as
`M = e^(-0.5 t) * (cos(w t) I + k B)` with `B = A + 0.5 I` and
`k = (|w| < 1e-8) ? t : sin(w t)/w`, exactly as in the source. -/
noncomputable def expA (t : ℝ) : Mat2 :=
  let et := Real.exp (-0.5 * t)
  let c := Real.cos (w * t)
  let s := Real.sin (w * t)
  let k := if |w| < 1e-8 then t else s / w
  { m00 := et * (c + k * (-0.5))
    m01 := et * (k * (-1))
    m10 := et * (k * 1)
    m11 := et * (c + k * 0.5) }

/-- Determinant of a 2x2 matrix (the spec's `det(M(t))`). -/
noncomputable def det2 (M : Mat2) : ℝ := M.m00 * M.m11 - M.m01 * M.m10

lemma sqrt_three_pos : (0 : ℝ) < Real.sqrt 3 := by
  have h : (1 : ℝ) ≤ Real.sqrt 3 := (Real.le_sqrt' one_pos).mpr (by norm_num)
  linarith

lemma w_pos : (0 : ℝ) < w := by
  unfold w
  have := sqrt_three_pos
  linarith

lemma w_not_small : ¬ |w| < 1e-8 := by
  have hw : (1 : ℝ) / 2 ≤ w := by
    have h : (1 : ℝ) ≤ Real.sqrt 3 := (Real.le_sqrt' one_pos).mpr (by norm_num)
    unfold w
    linarith
  have habs : |w| = w := abs_of_pos w_pos
  rw [habs]
  norm_num
  linarith

lemma w_sq : w * w = 3 / 4 := by
  unfold w
  have h : Real.sqrt 3 * Real.sqrt 3 = 3 := Real.mul_self_sqrt (by norm_num)
  field_simp
  linarith [h]

/-- With the actual `w`, the guard branch of `expA` always takes `sin(wt)/w`. -/
lemma expA_k (t : ℝ) :
    (if |w| < 1e-8 then t else Real.sin (w * t) / w) = Real.sin (w * t) / w := by
  rw [if_neg w_not_small]

lemma expA_m00 (t : ℝ) :
    (expA t).m00 = Real.exp (-0.5 * t) * (Real.cos (w * t) + Real.sin (w * t) / w * (-0.5)) := by
  unfold expA
  simp only [expA_k]

lemma expA_m01 (t : ℝ) :
    (expA t).m01 = Real.exp (-0.5 * t) * (Real.sin (w * t) / w * (-1)) := by
  unfold expA
  simp only [expA_k]

lemma expA_m10 (t : ℝ) :
    (expA t).m10 = Real.exp (-0.5 * t) * (Real.sin (w * t) / w * 1) := by
  unfold expA
  simp only [expA_k]

lemma expA_m11 (t : ℝ) :
    (expA t).m11 = Real.exp (-0.5 * t) * (Real.cos (w * t) + Real.sin (w * t) / w * 0.5) := by
  unfold expA
  simp only [expA_k]

/-- At `t = 0` the evaluator returns the identity matrix. -/
lemma expA_zero_eq : expA 0 = { m00 := 1, m01 := 0, m10 := 0, m11 := 1 } := by
  have hm00 := expA_m00 0
  have hm01 := expA_m01 0
  have hm10 := expA_m10 0
  have hm11 := expA_m11 0
  simp only [mul_zero, Real.sin_zero, Real.cos_zero, Real.exp_zero,
    zero_div] at hm00 hm01 hm10 hm11
  cases hM : expA 0
  simp only [hM] at hm00 hm01 hm10 hm11
  congr 1 <;> simp_all

lemma det_expA_eq (t : ℝ) : det2 (expA t) = Real.exp (-t) := by
  have hw0 : w ≠ 0 := ne_of_gt w_pos
  have hk2 : 3 / 4 * (Real.sin (w * t) / w) ^ 2 = Real.sin (w * t) ^ 2 := by
    rw [div_pow]
    have hwsq : w ^ 2 = 3 / 4 := by nlinarith [w_sq]
    rw [hwsq]
    field_simp
    ring
  have hpy : Real.cos (w * t) ^ 2 + Real.sin (w * t) ^ 2 = 1 := by
    have h := Real.sin_sq_add_cos_sq (w * t)
    linarith
  have hee : Real.exp (-0.5 * t) * Real.exp (-0.5 * t) = Real.exp (-t) := by
    rw [← Real.exp_add]
    ring_nf
  rw [det2, expA_m00, expA_m01, expA_m10, expA_m11]
  calc Real.exp (-0.5 * t) * (Real.cos (w * t) + Real.sin (w * t) / w * (-0.5)) *
        (Real.exp (-0.5 * t) * (Real.cos (w * t) + Real.sin (w * t) / w * 0.5)) -
        Real.exp (-0.5 * t) * (Real.sin (w * t) / w * (-1)) *
        (Real.exp (-0.5 * t) * (Real.sin (w * t) / w * 1))
      = Real.exp (-0.5 * t) * Real.exp (-0.5 * t) *
          (Real.cos (w * t) ^ 2 + 3 / 4 * (Real.sin (w * t) / w) ^ 2) := by ring
    _ = Real.exp (-0.5 * t) * Real.exp (-0.5 * t) := by rw [hk2, hpy, mul_one]
    _ = Real.exp (-t) := hee

/-- Claim C2: for every `t ≥ 0`, the determinant of the matrix `M(t)` returned
by the Trajectory Evaluator `expA` equals `e^(-t)` (the trace of the generator
is `-1`).  Over the real-number idealization of the float arithmetic the
identity is exact. -/
theorem det_expA_claim (t : ℝ) (ht : 0 ≤ t) : det2 (expA t) = Real.exp (-t) :=
  det_expA_eq t

/-- Witness for C2 at `t = 0`. -/
theorem det_expA_claim_witness : det2 (expA 0) = Real.exp (-0) :=
  det_expA_claim 0 le_rfl

/-- Claim C3: the Trajectory Evaluator at `t = 0` returns the 2x2 identity
matrix: `M[0][0] = M[1][1] = 1` and `M[0][1] = M[1][0] = 0` (exactly, in the
real-number idealization). -/
theorem expA_zero_claim :
    (expA 0).m00 = 1 ∧ (expA 0).m01 = 0 ∧ (expA 0).m10 = 0 ∧ (expA 0).m11 = 1 := by
  rw [expA_zero_eq]
  exact ⟨rfl, rfl, rfl, rfl⟩

/-! ## Frame geometry (per-particle body of the main loop, identical in both
variants; terminal dimensions `cols`, `rows` are C `int`s, modelled as ℤ) -/

/-- Screen center x: `cx = (cols - 1) * 0.5f`. -/
def cxOf (cols : ℤ) : ℝ := ((cols : ℝ) - 1) * 0.5

/-- Screen center y: `cy = (rows - 1) * 0.5f`. -/
def cyOf (rows : ℤ) : ℝ := ((rows : ℝ) - 1) * 0.5

/-- C `lroundf`: round to nearest integer, halfway cases away from zero.
Mathlib's `round` rounds halfway cases up, so negative inputs are negated. -/
noncomputable def lround (x : ℝ) : ℤ := if x < 0 then -round (-x) else round x

/-- Un-stretched x-coordinate of a particle:
`vx = RADIUS_MULT * SCALE * (M[0][0]*vx0 + M[0][1]*vy0)` with `M = expA age`. -/
noncomputable def vxOf (age vx0 vy0 : ℝ) : ℝ :=
  RADIUS_MULT * SCALE * ((expA age).m00 * vx0 + (expA age).m01 * vy0)

/-- Un-stretched y-coordinate of a particle:
`vy = RADIUS_MULT * SCALE * (M[1][0]*vx0 + M[1][1]*vy0)` with `M = expA age`. -/
noncomputable def vyOf (age vx0 vy0 : ℝ) : ℝ :=
  RADIUS_MULT * SCALE * ((expA age).m10 * vx0 + (expA age).m11 * vy0)

/-- Radial distance `r = sqrtf(vx*vx + vy*vy)` in un-stretched space. -/
noncomputable def rOf (age vx0 vy0 : ℝ) : ℝ :=
  Real.sqrt (vxOf age vx0 vy0 * vxOf age vx0 vy0 + vyOf age vx0 vy0 * vyOf age vx0 vy0)

/-- Integer screen column `x = lroundf(cx + X_MULT * vx)`. -/
noncomputable def screenX (cols : ℤ) (age vx0 vy0 : ℝ) : ℤ :=
  lround (cxOf cols + X_MULT * vxOf age vx0 vy0)

/-- Integer screen row `y = lroundf(cy + Y_MULT * vy)`. -/
noncomputable def screenY (rows : ℤ) (age vx0 vy0 : ℝ) : ℤ :=
  lround (cyOf rows + Y_MULT * vyOf age vx0 vy0)

/-- Pre-rounding screen position `(cx + sx, cy + sy)` of a particle. -/
noncomputable def preRoundPos (cols rows : ℤ) (age vx0 vy0 : ℝ) : ℝ × ℝ :=
  (cxOf cols + X_MULT * vxOf age vx0 vy0, cyOf rows + Y_MULT * vyOf age vx0 vy0)

/-- Per-particle, per-frame decision of the Frame Renderer:
`none` means the branch `r < MIN_R || x < 0 || x >= cols || y < 0 || y >= rows`
was taken, so the particle is respawned and `continue` skips its draw call;
`some (x, y)` means a draw call is emitted at cell `(x, y)`. -/
noncomputable def frameDecision (cols rows : ℤ) (age vx0 vy0 : ℝ) : Option (ℤ × ℤ) :=
  if rOf age vx0 vy0 < MIN_R ∨ screenX cols age vx0 vy0 < 0 ∨
      cols ≤ screenX cols age vx0 vy0 ∨ screenY rows age vx0 vy0 < 0 ∨
      rows ≤ screenY rows age vx0 vy0 then
    none
  else
    some (screenX cols age vx0 vy0, screenY rows age vx0 vy0)

/-- Claim C1: if a particle's un-stretched radial distance is below the
minimum-radius threshold `MIN_R = 3`, or its rounded screen coordinates fall
outside `[0, cols) x [0, rows)`, the frame decision is `none`: the particle is
respawned in that same frame and no draw call is emitted for it. -/
theorem offscreen_respawn_claim (cols rows : ℤ) (age vx0 vy0 : ℝ)
    (h : rOf age vx0 vy0 < MIN_R ∨ screenX cols age vx0 vy0 < 0 ∨
      cols ≤ screenX cols age vx0 vy0 ∨ screenY rows age vx0 vy0 < 0 ∨
      rows ≤ screenY rows age vx0 vy0) :
    MIN_R = 3 ∧ frameDecision cols rows age vx0 vy0 = none :=
  ⟨rfl, by rw [frameDecision, if_pos h]⟩

lemma vxOf_zero (vx0 vy0 : ℝ) : vxOf 0 vx0 vy0 = RADIUS_MULT * SCALE * vx0 := by
  rw [vxOf, expA_zero_eq]
  ring

lemma vyOf_zero (vx0 vy0 : ℝ) : vyOf 0 vx0 vy0 = RADIUS_MULT * SCALE * vy0 := by
  rw [vyOf, expA_zero_eq]
  ring

/-- Witness for C1: a particle at the exact center (launch vector `(0,0)`,
age `0`) has `r = 0 < MIN_R` and is respawned without being drawn. -/
theorem offscreen_respawn_claim_witness :
    MIN_R = 3 ∧ frameDecision 80 24 0 0 0 = none := by
  apply offscreen_respawn_claim
  left
  rw [rOf, vxOf_zero, vyOf_zero]
  simp only [mul_zero, add_zero, Real.sqrt_zero, MIN_R]
  norm_num

/-- Claim C4: for an 80x24 terminal with the source tunables
(`SPEED = 1.35`, `SCALE = 0.76`, `RADIUS_MULT = 2`), a particle with launch
vector `(10, 0)` at age exactly `0` has pre-rounding screen position
`(cx + 2*0.76*10*X_MULT, cy)` with `cx = 39.5`, `cy = 11.5`: horizontal
offset `15.2 * X_MULT` from center and zero vertical offset. -/
theorem endtoend_pos_claim :
    cxOf 80 = 39.5 ∧ cyOf 24 = 11.5 ∧ SPEED = 1.35 ∧
    preRoundPos 80 24 0 10 0 = (39.5 + 2 * 0.76 * 10 * X_MULT, 11.5) := by
  refine ⟨by norm_num [cxOf], by norm_num [cyOf], rfl, ?_⟩
  rw [preRoundPos, vxOf_zero, vyOf_zero]
  norm_num [cxOf, cyOf, X_MULT, Y_MULT, RADIUS_MULT, SCALE]

/-! ## Respawn Policy (`frandf` / `respawn` in both sources; the two variants
differ only in the outer annulus ratio: `0.95` in `ematrix.c`, `2.95` in the
unnamed variant).  `rand()/RAND_MAX` samples are passed as parameters in
`[0, 1]`. -/

/-- Embedding of `frandf(a, b)`: `a + (b - a) * u` where `u` is the sampled
value `rand() / RAND_MAX ∈ [0, 1]`. -/
def frandf (a b u : ℝ) : ℝ := a + (b - a) * u

/-- The respawn annulus reference radius `maxr = fminf(cx, cy)`. -/
def maxrOf (cols rows : ℤ) : ℝ := min (cxOf cols) (cyOf rows)

/-- The sampled respawn radius `r = frandf(maxr * 0.35f, maxr * outer)`;
`outer` is `0.95` in `ematrix.c` and `2.95` in the unnamed variant. -/
def respawnRadius (cols rows : ℤ) (outer u1 : ℝ) : ℝ :=
  frandf (maxrOf cols rows * 0.35) (maxrOf cols rows * outer) u1

/-- The sampled respawn angle `a = frandf(0.0f, 2.0f * M_PI)`. -/
noncomputable def respawnAngle (u2 : ℝ) : ℝ := frandf 0 (2 * Real.pi) u2

/-- The launch vector produced by `respawn`:
`(r * cosf(a), r * sinf(a))`. -/
noncomputable def respawnVec (cols rows : ℤ) (outer u1 u2 : ℝ) : ℝ × ℝ :=
  (respawnRadius cols rows outer u1 * Real.cos (respawnAngle u2),
   respawnRadius cols rows outer u1 * Real.sin (respawnAngle u2))

/-- Euclidean magnitude of a vector. -/
noncomputable def vecMag (v : ℝ × ℝ) : ℝ := Real.sqrt (v.1 * v.1 + v.2 * v.2)

lemma frandf_mem (a b u : ℝ) (hab : a ≤ b) (hu : u ∈ Set.Icc (0 : ℝ) 1) :
    frandf a b u ∈ Set.Icc a b := by
  obtain ⟨h0, h1⟩ := hu
  rw [frandf]
  constructor
  · nlinarith
  · nlinarith

lemma vecMag_respawn (cols rows : ℤ) (outer u1 u2 : ℝ)
    (hr : 0 ≤ respawnRadius cols rows outer u1) :
    vecMag (respawnVec cols rows outer u1 u2) = respawnRadius cols rows outer u1 := by
  rw [vecMag, respawnVec]
  have h : respawnRadius cols rows outer u1 * Real.cos (respawnAngle u2) *
        (respawnRadius cols rows outer u1 * Real.cos (respawnAngle u2)) +
      respawnRadius cols rows outer u1 * Real.sin (respawnAngle u2) *
        (respawnRadius cols rows outer u1 * Real.sin (respawnAngle u2)) =
      respawnRadius cols rows outer u1 * respawnRadius cols rows outer u1 := by
    linear_combination (respawnRadius cols rows outer u1 * respawnRadius cols rows outer u1) *
      Real.sin_sq_add_cos_sq (respawnAngle u2)
  rw [h, Real.sqrt_mul_self hr]

lemma respawn_mag_mem (cols rows : ℤ) (outer u1 u2 : ℝ) (hm : 0 ≤ maxrOf cols rows)
    (houter : 0.35 ≤ outer) (hu1 : u1 ∈ Set.Icc (0 : ℝ) 1) :
    vecMag (respawnVec cols rows outer u1 u2) ∈
      Set.Icc (0.35 * maxrOf cols rows) (outer * maxrOf cols rows) := by
  have hab : maxrOf cols rows * 0.35 ≤ maxrOf cols rows * outer := by nlinarith
  have hmem := frandf_mem (maxrOf cols rows * 0.35) (maxrOf cols rows * outer) u1 hab hu1
  have hr0 : 0 ≤ respawnRadius cols rows outer u1 := le_trans (by nlinarith) hmem.1
  rw [vecMag_respawn cols rows outer u1 u2 hr0, respawnRadius]
  exact ⟨by linarith [hmem.1], by linarith [hmem.2]⟩

/-- Claim C5: every respawned launch vector has magnitude inside the
configured annulus, `[0.35 * maxr, 0.95 * maxr]` in `ematrix.c` and
`[0.35 * maxr, 2.95 * maxr]` in the unnamed variant, where
`maxr = min((cols-1)/2, (rows-1)/2)`; and the respawn angle ranges over the
full circle `[0, 2*pi)`. -/
theorem respawn_annulus_claim (cols rows : ℤ) (u1 u2 : ℝ)
    (hm : 0 ≤ maxrOf cols rows) (hu1 : u1 ∈ Set.Icc (0 : ℝ) 1) :
    vecMag (respawnVec cols rows 0.95 u1 u2) ∈
      Set.Icc (0.35 * maxrOf cols rows) (0.95 * maxrOf cols rows) ∧
    vecMag (respawnVec cols rows 2.95 u1 u2) ∈
      Set.Icc (0.35 * maxrOf cols rows) (2.95 * maxrOf cols rows) ∧
    ∀ θ ∈ Set.Ico (0 : ℝ) (2 * Real.pi), ∃ u ∈ Set.Icc (0 : ℝ) 1, respawnAngle u = θ := by
  refine ⟨respawn_mag_mem cols rows 0.95 u1 u2 hm (by norm_num) hu1,
    respawn_mag_mem cols rows 2.95 u1 u2 hm (by norm_num) hu1, ?_⟩
  intro θ hθ
  have hπ : (0 : ℝ) < 2 * Real.pi := by positivity
  refine ⟨θ / (2 * Real.pi), ⟨div_nonneg hθ.1 hπ.le, (div_le_one hπ).mpr hθ.2.le⟩, ?_⟩
  rw [respawnAngle, frandf]
  field_simp

/-- Witness for C5 on an 80x24 terminal with samples `u1 = u2 = 0`. -/
theorem respawn_annulus_claim_witness :
    vecMag (respawnVec 80 24 0.95 0 0) ∈
      Set.Icc (0.35 * maxrOf 80 24) (0.95 * maxrOf 80 24) ∧
    vecMag (respawnVec 80 24 2.95 0 0) ∈
      Set.Icc (0.35 * maxrOf 80 24) (2.95 * maxrOf 80 24) := by
  have h := respawn_annulus_claim 80 24 0 0
    (by rw [maxrOf, cxOf, cyOf]; norm_num) (by norm_num)
  exact ⟨h.1, h.2.1⟩

lemma maxrOf_24_80 : maxrOf 24 80 = 11.5 := by
  rw [maxrOf, cxOf, cyOf]
  norm_num

lemma vecMag_ten : vecMag ((10 : ℝ), (0 : ℝ)) = 10 := by
  rw [vecMag]
  norm_num
  rw [show (100 : ℝ) = 10 * 10 by norm_num, Real.sqrt_mul_self (by norm_num)]

lemma screenX_24_ten : screenX 24 0 10 0 = 42 := by
  have harg : cxOf 24 + X_MULT * vxOf 0 10 0 = 41.9 := by
    rw [vxOf_zero]
    norm_num [cxOf, X_MULT, RADIUS_MULT, SCALE]
  rw [screenX, harg, lround, if_neg (by norm_num), round_eq]
  rw [Int.floor_eq_iff]
  norm_num

/-- Claim C10: a freshly respawned particle is not guaranteed to be on-screen
at its first evaluated frame.  On a 24-column, 80-row terminal the launch
vector `(10, 0)` lies inside the configured annulus of both variants
(`maxr = 11.5`), yet at age `0` (where `M(0) = I`) its horizontal screen
offset is `RADIUS_MULT * SCALE * X_MULT * 10 = 30.4`, which exceeds the
half-width `cx = 11.5`; the rounded column is `42 ≥ cols = 24`, so the frame
decision is `none`: the particle is respawned again without being drawn. -/
theorem first_frame_offscreen_claim :
    vecMag ((10 : ℝ), (0 : ℝ)) ∈ Set.Icc (0.35 * maxrOf 24 80) (0.95 * maxrOf 24 80) ∧
    vecMag ((10 : ℝ), (0 : ℝ)) ∈ Set.Icc (0.35 * maxrOf 24 80) (2.95 * maxrOf 24 80) ∧
    RADIUS_MULT * SCALE * X_MULT * 10 = 3.04 * 10 ∧
    cxOf 24 < 3.04 * 10 ∧
    screenX 24 0 10 0 = 42 ∧ (24 : ℤ) ≤ screenX 24 0 10 0 ∧
    frameDecision 24 80 0 10 0 = none := by
  have hcond : rOf 0 10 0 < MIN_R ∨ screenX 24 0 10 0 < 0 ∨
      (24 : ℤ) ≤ screenX 24 0 10 0 ∨ screenY 80 0 10 0 < 0 ∨
      (80 : ℤ) ≤ screenY 80 0 10 0 := by
    right; right; left
    rw [screenX_24_ten]
    norm_num
  refine ⟨?_, ?_, ?_, ?_, screenX_24_ten, ?_, ?_⟩
  · rw [vecMag_ten, maxrOf_24_80]
    constructor <;> norm_num
  · rw [vecMag_ten, maxrOf_24_80]
    constructor <;> norm_num
  · norm_num [RADIUS_MULT, SCALE, X_MULT]
  · norm_num [cxOf]
  · rw [screenX_24_ten]
    norm_num
  · rw [frameDecision, if_pos hcond]

/-! ## Glyph sampling (`rand_char`, identical in both variants) -/

/-- The fixed glyph table of `rand_char` (the C string literal `set`). -/
def glyphSet : String :=
  "0123456789ABCDEFGHIJKLMNOPQRSTUVWXYZabcdefghijklmnopqrstuvwxyz@#$%&*+=-"

/-- The glyph table as a list of characters. -/
def glyphList : List Char := glyphSet.toList

/-- Embedding of `rand_char`: `set[rand() % strlen(set)]`, with the raw
`rand()` value passed as `n`.  The index is always in range, so the default
character of `getD` is never used. -/
def rand_char (n : ℕ) : Char := glyphList.getD (n % glyphList.length) '0'

/-- Counterexample to C6: the glyph table has 71 characters, not 74. -/
theorem glyph_set_size_counterexample : glyphList.length = 71 ∧ glyphList.length ≠ 74 := by
  decide

/-- Claim C6 (amended): every glyph assigned to a particle is drawn, by
uniform index `rand() % 71`, from the fixed 71-character alphanumeric/symbol
set: the result is always in the set, depends only on the residue of the
random value modulo 71, and every character of the set is attainable. -/
theorem rand_char_set_claim (n : ℕ) :
    glyphList.length = 71 ∧ rand_char n ∈ glyphList ∧
    rand_char n = rand_char (n % 71) ∧
    ∀ c ∈ glyphList, ∃ m : ℕ, rand_char m = c := by
  have hlen : glyphList.length = 71 := by decide
  refine ⟨hlen, ?_, ?_, ?_⟩
  · rw [rand_char]
    have hlt : n % glyphList.length < glyphList.length := by
      rw [hlen]
      exact Nat.mod_lt n (by norm_num)
    rw [List.getD_eq_getElem glyphList '0' hlt]
    exact List.getElem_mem hlt
  · rw [rand_char, rand_char, hlen, Nat.mod_mod_of_dvd n dvd_rfl]
  · intro c hc
    obtain ⟨i, hi, hgi⟩ := List.mem_iff_getElem.mp hc
    refine ⟨i, ?_⟩
    rw [rand_char, hlen, Nat.mod_eq_of_lt (hlen ▸ hi),
      List.getD_eq_getElem glyphList '0' hi, hgi]

/-- Witness for C6 (amended) at the raw random value `n = 76`. -/
theorem rand_char_set_claim_witness :
    glyphList.length = 71 ∧ rand_char 76 ∈ glyphList ∧
    rand_char 76 = rand_char (76 % 71) :=
  ⟨(rand_char_set_claim 76).1, (rand_char_set_claim 76).2.1,
    (rand_char_set_claim 76).2.2.1⟩

/-! ## Swarm sizing and resize handling (`main` in both variants; terminal
dimensions from `getmaxyx` are nonnegative, modelled as ℕ) -/

/-- Swarm size of `ematrix.c`: `N = (rows * cols) / 12; if (N < 200) N = 200;`. -/
def swarmSizeA (rows cols : ℕ) : ℕ :=
  let n := rows * cols / 12
  if n < 200 then 200 else n

/-- Swarm size of the unnamed variant:
`N = (rows * cols) / 20; if (N < 200) N = 200;`. -/
def swarmSizeB (rows cols : ℕ) : ℕ :=
  let n := rows * cols / 20
  if n < 200 then 200 else n

/-- The loop state the resize handler touches: current dimensions and the
swarm cardinality `N` (the `calloc` allocation size, fixed at startup). -/
structure SimState where
  rows : ℕ
  cols : ℕ
  count : ℕ
deriving DecidableEq

/-- Startup state of `ematrix.c`: `N` computed once from the initial
terminal size. -/
def initStateA (rows cols : ℕ) : SimState :=
  { rows := rows, cols := cols, count := swarmSizeA rows cols }

/-- Embedding of the resize handler: on `newr != rows || newc != cols` the
dimensions are updated and every particle respawned, but `N` is not
recomputed and the swarm is not reallocated. -/
def resizeStep (s : SimState) (newr newc : ℕ) : SimState :=
  if newr ≠ s.rows ∨ newc ≠ s.cols then
    { rows := newr, cols := newc, count := s.count }
  else s

/-- Counterexample to C7: starting on a 24x80 terminal (`N = 200`) and
resizing to 50x100, the swarm keeps cardinality 200, while the density
function of the current terminal area would give `5000 / 12 = 416`.  The
cardinality is not a function of the current terminal area after a resize. -/
theorem swarm_density_counterexample :
    (resizeStep (initStateA 24 80) 50 100).count = 200 ∧
    swarmSizeA 50 100 = 416 ∧
    (resizeStep (initStateA 24 80) 50 100).count ≠
      swarmSizeA (resizeStep (initStateA 24 80) 50 100).rows
        (resizeStep (initStateA 24 80) 50 100).cols := by
  decide

/-- Claim C7 (amended): the swarm cardinality is computed once at startup as
`max(rows*cols/12, 200)` (`ematrix.c`) resp. `max(rows*cols/20, 200)` (the
unnamed variant), hence at least 200, and it stays fixed for the whole
process lifetime: even a resize updates the dimensions and respawns the
particles but never changes the cardinality. -/
theorem swarm_size_fixed_claim (rows cols newr newc : ℕ) :
    (initStateA rows cols).count = max (rows * cols / 12) 200 ∧
    200 ≤ (initStateA rows cols).count ∧
    (resizeStep (initStateA rows cols) newr newc).count = (initStateA rows cols).count ∧
    swarmSizeB rows cols = max (rows * cols / 20) 200 ∧
    200 ≤ swarmSizeB rows cols := by
  have hmax : ∀ n : ℕ, (if n < 200 then 200 else n) = max n 200 := by
    intro n
    split <;> omega
  have hA : (initStateA rows cols).count = max (rows * cols / 12) 200 := hmax _
  have hB : swarmSizeB rows cols = max (rows * cols / 20) 200 := hmax _
  refine ⟨hA, ?_, ?_, hB, ?_⟩
  · rw [hA]
    omega
  · rw [resizeStep]
    split <;> rfl
  · rw [hB]
    omega

/-- Witness for C7 (amended) at startup size 24x80, resized to 50x100. -/
theorem swarm_size_fixed_claim_witness :
    (initStateA 24 80).count = max (24 * 80 / 12) 200 ∧
    200 ≤ (initStateA 24 80).count ∧
    (resizeStep (initStateA 24 80) 50 100).count = (initStateA 24 80).count ∧
    swarmSizeB 24 80 = max (24 * 80 / 20) 200 ∧
    200 ≤ swarmSizeB 24 80 :=
  swarm_size_fixed_claim 24 80 50 100

/-! ## Exit paths and key handling (`main`) -/

/-- Terminal-lifecycle events the exit paths emit, in order. -/
inductive TermEvent where
  | endwinEv : TermEvent
  | freeEv : TermEvent
deriving DecidableEq

/-- The quit-key test of the main loop: `ch == 'q' || ch == 'Q'`. -/
def isQuitKey (c : Char) : Bool := c == 'q' || c == 'Q'

/-- The two exit paths of `main`, as (ordered event list, exit code):
allocation failure runs `endwin(), exit(1)`; a normal quit leaves the loop,
then runs `free(P); endwin(); return 0;`. -/
def programOutcome (allocOk : Bool) : List TermEvent × ℕ :=
  if allocOk then ([TermEvent.freeEv, TermEvent.endwinEv], 0)
  else ([TermEvent.endwinEv], 1)

/-- Claim C8: if allocating the swarm fails, the program releases the
terminal mode (`endwin`) and terminates with exit code 1 (non-zero); a
normal quit via the q/Q key exits with code 0. -/
theorem exit_paths_claim :
    programOutcome false = ([TermEvent.endwinEv], 1) ∧
    (programOutcome false).2 ≠ 0 ∧
    TermEvent.endwinEv ∈ (programOutcome false).1 ∧
    programOutcome true = ([TermEvent.freeEv, TermEvent.endwinEv], 0) ∧
    (programOutcome true).2 = 0 ∧
    isQuitKey 'q' = true ∧ isQuitKey 'Q' = true ∧ isQuitKey 'x' = false := by
  decide

/-- Per-tick control state of the unnamed variant's main loop: the quit flag
(whether `break` fired) and the color mode `bh_mode`. -/
structure LoopCtl where
  quit : Bool
  bh_mode : Bool
deriving DecidableEq

/-- Embedding of the key handling at the top of the unnamed variant's loop:
`if (ch=='q'||ch=='Q') break; if (ch=='r'||ch=='R') bh_mode = !bh_mode;`
(`none` models `getch()` returning `ERR`, i.e. no key pressed). -/
def handleKey (s : LoopCtl) (c : Option Char) : LoopCtl :=
  match c with
  | none => s
  | some ch =>
    if ch == 'q' || ch == 'Q' then { s with quit := true }
    else if ch == 'r' || ch == 'R' then { s with bh_mode := !s.bh_mode }
    else s

/-- Claim C9: in the two-color-mode variant, toggling twice (keys r/R)
returns the whole loop-control state to its original value; one toggle flips
only the mode and leaves the quit flag unchanged; and the mode changes only
on an r/R keypress, never on any other input or on no input. -/
theorem mode_toggle_claim (s : LoopCtl) (c : Option Char) :
    handleKey (handleKey s (some 'r')) (some 'r') = s ∧
    handleKey (handleKey s (some 'R')) (some 'R') = s ∧
    (handleKey s (some 'r')).quit = s.quit ∧
    (handleKey s (some 'r')).bh_mode = !s.bh_mode ∧
    (handleKey s (some 'R')).bh_mode = !s.bh_mode ∧
    (c ≠ some 'r' → c ≠ some 'R' → (handleKey s c).bh_mode = s.bh_mode) := by
  obtain ⟨q, b⟩ := s
  refine ⟨?_, ?_, ?_, ?_, ?_, ?_⟩
  · cases q <;> cases b <;> decide
  · cases q <;> cases b <;> decide
  · cases q <;> cases b <;> decide
  · cases q <;> cases b <;> decide
  · cases q <;> cases b <;> decide
  · intro h1 h2
    match c with
    | none => rfl
    | some ch =>
      rw [handleKey]
      by_cases hq : (ch == 'q' || ch == 'Q') = true
      · rw [if_pos hq]
      · rw [if_neg hq]
        have hr : ¬ (ch == 'r' || ch == 'R') = true := by
          simp only [Bool.or_eq_true, beq_iff_eq]
          rintro (rfl | rfl)
          · exact h1 rfl
          · exact h2 rfl
        rw [if_neg hr]

/-- Witness for C9 with initial state `(quit, mode) = (false, false)` and the
non-toggle key `x`. -/
theorem mode_toggle_claim_witness :
    handleKey (handleKey ⟨false, false⟩ (some 'r')) (some 'r') = (⟨false, false⟩ : LoopCtl) ∧
    (handleKey ⟨false, false⟩ (some 'x')).bh_mode = false :=
  ⟨(mode_toggle_claim ⟨false, false⟩ (some 'x')).1,
   (mode_toggle_claim ⟨false, false⟩ (some 'x')).2.2.2.2.2 (by decide) (by decide)⟩

end EMatrix
